import Mathlib

/-!
Shallow embedding of the boundary rule engine of the marxists.org-rag-db
repository: import extraction (scripts/patterns/ast_utils.py), the import
validation chain (scripts/patterns/validators.py), the specification algebra
(scripts/patterns/specifications.py), file-path resolution
(scripts/domain/boundaries.py), the conflict checker
(scripts/check_conflicts.py) and the ownership-map self-validation
(scripts/patterns/instance_commands.py).
-/

/-- Python str.startswith, embedded on the character list of a string. -/
def str_startswith (s pre : String) : Bool :=
  pre.data.isPrefixOf s.data

/-- Lexicographic comparison of character lists by code point, the order in
which Python compares strings. -/
def charListLe : List Char → List Char → Bool
  | [], _ => true
  | _ :: _, [] => false
  | a :: as, b :: bs =>
    if a.toNat < b.toNat then true
    else if b.toNat < a.toNat then false
    else charListLe as bs

/-- Python string comparison by code points. -/
def str_le (s t : String) : Bool :=
  charListLe s.data t.data

/-- Occurrence of a pattern as a contiguous run inside a character list. -/
def listContainsInfix (pat : List Char) : List Char → Bool
  | [] => pat.isPrefixOf ([] : List Char)
  | c :: rest => pat.isPrefixOf (c :: rest) || listContainsInfix pat rest

/-- Python substring containment, the in operator on strings. -/
def str_contains (s pat : String) : Bool :=
  listContainsInfix pat.data s.data

/-- The final path component: the text after the last slash. -/
def path_name (p : String) : String :=
  ⟨(p.data.reverse.takeWhile (fun c => !(c == '/'))).reverse⟩

/-- Index of the last occurrence of a dot in a character list, the Python
str.rfind under an Option for absence. -/
def rfind_dot (cs : List Char) : Option Nat :=
  match cs.reverse.findIdx? (fun c => c == '.') with
  | none => none
  | some ri => some (cs.length - 1 - ri)

/-- Python pathlib suffix: the extension of the final path component, empty
when the final component has no inner dot. -/
def path_suffix (p : String) : String :=
  let nm := (path_name p).data
  match rfind_dot nm with
  | none => ""
  | some i => if 0 < i ∧ i < nm.length - 1 then ⟨nm.drop i⟩ else ""

/-- ImportStatement from scripts/patterns/ast_utils.py. -/
structure ImportStatement where
  module : String
  names : List String
  level : Nat
  source_file : String
  line_number : Nat
  is_from_import : Bool
deriving Repr, DecidableEq

/-- Pointwise replacement of every dot by a slash, the single-character case
of the Python str.replace used by module_path. -/
def replace_dots (s : String) : String :=
  ⟨s.data.map (fun c => if c == '.' then '/' else c)⟩

/-- The module_path property of ImportStatement: empty module gives the empty
string, otherwise dots become slashes and a trailing slash is appended. -/
def ImportStatement.module_path (st : ImportStatement) : String :=
  if st.module = "" then "" else replace_dots st.module ++ "/"

/-- An alias in a Python import clause: the imported name and the optional
asname. -/
structure ImportAlias where
  name : String
  asname : Option String
deriving Repr, DecidableEq

/-- The import-bearing statements of the Python AST visited by
ImportExtractor: a plain import with its aliases, or a from-import carrying
the optional dotted module, its aliases, and the count of leading
relative-import dots (the level field the Python parser computes). -/
inductive PyStmt where
  | importStmt (aliases : List ImportAlias) (lineno : Nat)
  | importFrom (module : Option String) (aliases : List ImportAlias)
      (level : Nat) (lineno : Nat)
deriving Repr, DecidableEq

/-- ImportExtractor.visit_Import: one ImportStatement per alias. -/
def visit_Import (source_file : String) (aliases : List ImportAlias)
    (lineno : Nat) : List ImportStatement :=
  aliases.map (fun a =>
    { module := a.name
      names := match a.asname with | some an => [an] | none => [a.name]
      level := 0
      source_file := source_file
      line_number := lineno
      is_from_import := false })

/-- ImportExtractor.visit_ImportFrom: exactly one ImportStatement for the
whole clause. -/
def visit_ImportFrom (source_file : String) (module : Option String)
    (aliases : List ImportAlias) (level : Nat) (lineno : Nat) :
    List ImportStatement :=
  [{ module := module.getD ""
     names := aliases.map (fun a => a.name)
     level := level
     source_file := source_file
     line_number := lineno
     is_from_import := true }]

/-- Running ImportExtractor over the statements of a parsed module in source
order. -/
def extractor_run (source_file : String) (stmts : List PyStmt) :
    List ImportStatement :=
  stmts.flatMap (fun s =>
    match s with
    | .importStmt aliases lineno => visit_Import source_file aliases lineno
    | .importFrom module aliases level lineno =>
        visit_ImportFrom source_file module aliases level lineno)

/-- The state of a file for the extractor: missing from disk, present but not
parseable as Python, or parsed into its statements. -/
inductive FileState where
  | missing
  | unparsable
  | parsed (stmts : List PyStmt)
deriving Repr, DecidableEq

/-- The exceptions extract_imports can raise. -/
inductive ExtractError where
  | fileNotFound (path : String)
  | syntaxError (path : String)
deriving Repr, DecidableEq

/-- extract_imports from scripts/patterns/ast_utils.py: the existence check
comes first, then the non-Python suffix short-circuit, then parsing. -/
def extract_imports (path : String) (st : FileState) :
    Except ExtractError (List ImportStatement) :=
  match st with
  | .missing => .error (.fileNotFound path)
  | .unparsable =>
      if path_suffix path ≠ ".py" then .ok [] else .error (.syntaxError path)
  | .parsed stmts =>
      if path_suffix path ≠ ".py" then .ok []
      else .ok (extractor_run path stmts)

/-- ValidationContext from scripts/patterns/validators.py; the Python sets
are carried as lists, the dict as an insertion-ordered association list. -/
structure ValidationContext where
  instance_id : String
  owned_paths : List String
  allowed_imports : List String
  all_instance_boundaries : List (String × List String)
deriving Repr, DecidableEq

/-- ImportViolation from scripts/patterns/validators.py. -/
structure ImportViolation where
  import_statement : ImportStatement
  validator_name : String
  message : String
  severity : String
deriving Repr, DecidableEq

/-- OwnedPathValidator.validate: every control path returns None, this
validator being a documented no-op extension point. -/
def OwnedPathValidator.validate (stmt : ImportStatement)
    (ctx : ValidationContext) : Option ImportViolation :=
  if ¬ str_startswith stmt.module "src" then none
  else
    let mp := stmt.module_path
    if ctx.owned_paths.any (fun owned => str_startswith mp owned) then none
    else if ctx.allowed_imports.any (fun al => str_startswith mp al) then none
    else none

/-- SharedImportValidator.validate: it computes whether the import targets a
shared module and returns None either way. -/
def SharedImportValidator.validate (stmt : ImportStatement)
    (_ctx : ValidationContext) : Option ImportViolation :=
  let mp := stmt.module_path
  let sharedList := ["src/mia_rag/common/", "src/mia_rag/interfaces/"]
  let _is_shared := sharedList.any (fun p => str_startswith mp p)
  none

/-- CrossInstanceValidator.validate: the first other instance one of whose
owned paths is a prefix of the module path yields an error violation. -/
def CrossInstanceValidator.validate (stmt : ImportStatement)
    (ctx : ValidationContext) : Option ImportViolation :=
  if ¬ str_startswith stmt.module "src" then none
  else
    ctx.all_instance_boundaries.findSome? (fun entry =>
      if entry.1 == ctx.instance_id then none
      else if entry.2.any (fun p => str_startswith stmt.module_path p) then
        some { import_statement := stmt
               validator_name := "CrossInstanceValidator"
               message := "Cannot import from " ++ entry.1 ++ "'s module: " ++
                 stmt.module ++ " (line " ++ toString stmt.line_number ++ ")"
               severity := "error" }
      else none)

/-- The three validators of scripts/patterns/validators.py as chain links. -/
inductive ValidatorKind where
  | ownedPath
  | sharedImport
  | crossInstance
deriving Repr, DecidableEq

/-- Dispatch of validate over the chain links. -/
def ValidatorKind.validate :
    ValidatorKind → ImportStatement → ValidationContext → Option ImportViolation
  | .ownedPath, s, c => OwnedPathValidator.validate s c
  | .sharedImport, s, c => SharedImportValidator.validate s c
  | .crossInstance, s, c => CrossInstanceValidator.validate s c

/-- ImportValidator.handle: collect this link, then recurse over the rest of
the chain, concatenating all violations. -/
def handle_chain :
    List ValidatorKind → ImportStatement → ValidationContext → List ImportViolation
  | [], _, _ => []
  | v :: rest, s, c =>
    (match v.validate s c with
     | some viol => [viol]
     | none => []) ++ handle_chain rest s c

/-- create_validation_chain from scripts/patterns/validators.py: owned-path,
then shared-import, then cross-instance. -/
def create_validation_chain : List ValidatorKind :=
  [.ownedPath, .sharedImport, .crossInstance]

/-- The specification algebra of scripts/patterns/specifications.py: base
specifications plus the And, Or and Not composites the binary combinator
operators produce. -/
inductive Specification (α : Type) where
  | base (pred : α → Bool) (why : String)
  | AndSpecification (left right : Specification α)
  | OrSpecification (left right : Specification α)
  | NotSpecification (spec : Specification α)

/-- is_satisfied_by over the specification algebra. -/
def Specification.is_satisfied_by {α : Type} : Specification α → α → Bool
  | .base pred _, c => pred c
  | .AndSpecification l r, c => l.is_satisfied_by c && r.is_satisfied_by c
  | .OrSpecification l r, c => l.is_satisfied_by c || r.is_satisfied_by c
  | .NotSpecification s, c => ! s.is_satisfied_by c

/-- reason over the specification algebra. -/
def Specification.reason {α : Type} : Specification α → String
  | .base _ why => why
  | .AndSpecification l r => l.reason ++ " AND " ++ r.reason
  | .OrSpecification l r => l.reason ++ " OR " ++ r.reason
  | .NotSpecification s => "NOT (" ++ s.reason ++ ")"

/-- Per-instance configuration from BoundaryChecker.INSTANCE_BOUNDARIES. -/
structure InstanceConfig where
  owned_paths : List String
  allowed_imports : List String
  instance_id : String
deriving Repr, DecidableEq

/-- BoundaryChecker.INSTANCE_BOUNDARIES from scripts/check_conflicts.py, in
declaration order. -/
def INSTANCE_BOUNDARIES : List (String × InstanceConfig) :=
  [("instance1",
    { owned_paths := ["src/mia_rag/storage/", "src/mia_rag/pipeline/",
        "tests/unit/instance1_storage/", "tests/integration/storage_pipeline/",
        "docs/instance1-storage.md"]
      allowed_imports := ["src/mia_rag/common/", "src/mia_rag/interfaces/"]
      instance_id := "instance1-storage" }),
   ("instance2",
    { owned_paths := ["src/mia_rag/embeddings/", "tests/unit/instance2_embeddings/",
        "tests/integration/embeddings/", "docs/instance2-embeddings.md"]
      allowed_imports := ["src/mia_rag/common/", "src/mia_rag/interfaces/"]
      instance_id := "instance2-embeddings" }),
   ("instance3",
    { owned_paths := ["src/mia_rag/weaviate/", "tests/unit/instance3_weaviate/",
        "tests/integration/weaviate/", "docs/instance3-weaviate.md"]
      allowed_imports := ["src/mia_rag/common/", "src/mia_rag/interfaces/"]
      instance_id := "instance3-weaviate" }),
   ("instance4",
    { owned_paths := ["src/mia_rag/api/", "tests/unit/instance4_api/",
        "tests/integration/api/", "docs/instance4-api.md"]
      allowed_imports := ["src/mia_rag/common/", "src/mia_rag/interfaces/",
        "src/mia_rag/weaviate/"]
      instance_id := "instance4-api" }),
   ("instance5",
    { owned_paths := ["src/mia_rag/mcp/", "tests/unit/instance5_mcp/",
        "tests/integration/mcp/", "docs/instance5-mcp.md"]
      allowed_imports := ["src/mia_rag/common/", "src/mia_rag/interfaces/",
        "src/mia_rag/weaviate/"]
      instance_id := "instance5-mcp" }),
   ("instance6",
    { owned_paths := ["src/mia_rag/monitoring/", "tests/unit/instance6_monitoring/",
        "tests/integration/monitoring/", "docs/instance6-monitoring.md"]
      allowed_imports := ["src/mia_rag/common/", "src/mia_rag/interfaces/"]
      instance_id := "instance6-monitoring" })]

/-- BoundaryChecker.COMMON_PATHS from scripts/check_conflicts.py. -/
def COMMON_PATHS : List String :=
  ["src/mia_rag/common/", "src/mia_rag/interfaces/", "tests/contracts/",
   "docs/architecture/", "docs/interfaces/", ".github/", "scripts/",
   "pyproject.toml", ".mise.toml", "README.md", "INSTANCE-BOUNDARIES.md",
   "AI-AGENT-INSTRUCTIONS.md"]

/-- BoundaryViolation from scripts/check_conflicts.py; the Python field named
instance is rendered instance_name, instance being a keyword here. -/
structure BoundaryViolation where
  instance_name : String
  file_path : String
  violation_type : String
  severity : String
  message : String
deriving Repr, DecidableEq

/-- The INSTANCE_BOUNDARIES dict lookup with the empty default config, the
Python dict.get chain used by check_conflicts.py. -/
def get_config (inst : String) : InstanceConfig :=
  match INSTANCE_BOUNDARIES.lookup inst with
  | some c => c
  | none => { owned_paths := [], allowed_imports := [], instance_id := "" }

/-- BoundaryChecker.check_file_ownership from scripts/check_conflicts.py. -/
def check_file_ownership (file_str : String) (inst : String) :
    Option BoundaryViolation :=
  if COMMON_PATHS.any (fun cp => str_startswith file_str cp) then none
  else if (get_config inst).owned_paths.any
      (fun op => str_startswith file_str op) then none
  else
    match INSTANCE_BOUNDARIES.findSome? (fun entry =>
      if entry.1 == inst then none
      else if entry.2.owned_paths.any (fun op => str_startswith file_str op) then
        some entry.1
      else none) with
    | some other =>
        some { instance_name := inst, file_path := file_str
               violation_type := "ownership", severity := "error"
               message := inst ++ " cannot modify " ++ file_str ++
                 " (owned by " ++ other ++ ")" }
    | none =>
        some { instance_name := inst, file_path := file_str
               violation_type := "undefined", severity := "warning"
               message := file_str ++ " is not in any defined boundary" }

/-- The ValidationContext check_imports builds from INSTANCE_BOUNDARIES. -/
def build_ctx (inst : String) : ValidationContext :=
  { instance_id := inst
    owned_paths := (get_config inst).owned_paths
    allowed_imports := (get_config inst).allowed_imports
    all_instance_boundaries :=
      INSTANCE_BOUNDARIES.map (fun e => (e.1, e.2.owned_paths)) }

/-- BoundaryChecker.check_imports from scripts/check_conflicts.py: skip
non-Python or missing files, downgrade parse failures to a warning
violation, otherwise run every extracted import through the chain. -/
def check_imports (inst : String) (path : String) (st : FileState) :
    List BoundaryViolation :=
  if path_suffix path ≠ ".py" then []
  else match st with
  | .missing => []
  | .unparsable =>
      [{ instance_name := inst, file_path := path
         violation_type := "parse_error", severity := "warning"
         message := "Syntax error in file" }]
  | .parsed stmts =>
      (extractor_run path stmts).flatMap (fun stmt =>
        (handle_chain create_validation_chain stmt (build_ctx inst)).map
          (fun iv =>
            { instance_name := inst, file_path := path
              violation_type := "import", severity := iv.severity
              message := iv.message }))

/-- The ascending sort order of check_all_boundaries: the key pair is
(severity is not error, file path), booleans with False before True and file
paths compared as Python strings; list.sort is a stable merge sort. -/
def violation_le (v w : BoundaryViolation) : Bool :=
  let bv : Bool := !(v.severity == "error")
  let bw : Bool := !(w.severity == "error")
  (!bv && bw) || ((bv == bw) && str_le v.file_path w.file_path)

/-- BoundaryChecker.check_all_boundaries from scripts/check_conflicts.py:
without a detected instance the check aborts with an empty report and
failure; with no modified files it succeeds trivially; otherwise every file
contributes its ownership verdict and import violations, the merged list is
sorted and success means no error-severity violation remains. -/
def check_all_boundaries (current : Option String)
    (files : List (String × FileState)) : List BoundaryViolation × Bool :=
  match current with
  | none => ([], false)
  | some inst =>
    if files.isEmpty then ([], true)
    else
      let violations := files.flatMap (fun f =>
        (check_file_ownership f.1 inst).toList ++ check_imports inst f.1 f.2)
      let sorted := violations.mergeSort violation_le
      (sorted, (sorted.filter (fun v => v.severity == "error")).length == 0)

/-- The exit code of main in scripts/check_conflicts.py as a function of the
check result and the strict flag. -/
def main_exit (current : Option String) (files : List (String × FileState))
    (strict : Bool) : Nat :=
  let res := check_all_boundaries current files
  if !res.2 || (strict && !res.1.isEmpty) then 1 else 0

/-- Rank of a severity string: errors before warnings before everything
else. -/
def severity_rank (s : String) : Nat :=
  if s = "error" then 0 else if s = "warning" then 1 else 2

/-- The config patterns recognised by FilePath._is_config_file in
scripts/domain/boundaries.py. -/
def config_patterns : List String :=
  [".github/", "pyproject.toml", "poetry.lock", ".gitignore",
   ".pre-commit-config.yaml", ".instance", "mise.toml", "README.md", "LICENSE"]

/-- FilePath._is_config_file: a pattern occurring inside the path or equal to
it. -/
def is_config_file (path_str : String) : Bool :=
  config_patterns.any (fun pat => str_contains path_str pat || path_str == pat)

/-- FilePath from scripts/domain/boundaries.py. -/
structure FilePath where
  absolute : String
  relative_to_project : String
  instance_owner : Option String
  is_test_file : Bool
  is_shared : Bool
  is_config : Bool
  file_extension : String
deriving Repr, DecidableEq

/-- FilePath.from_path from scripts/domain/boundaries.py. The
filesystem-dependent pathlib steps are passed as oracles: is_absolute on the
raw path, resolve for the absolute form of a relative path, and relative_to
as an optional strip of the project root (None standing for the ValueError
fallback to the raw path). -/
def FilePath.from_path (path : String) (project_root : String)
    (owner_resolver : String → Option String) (shared_checker : String → Bool)
    (is_absolute : String → Bool) (resolve : String → String)
    (relative_to : String → String → Option String) : FilePath :=
  let path_obj := if is_absolute path then path
                  else resolve (project_root ++ "/" ++ path)
  let relative := match relative_to path_obj project_root with
    | some r => r
    | none => path
  let path_str := relative
  let is_test_file := str_contains path_str "tests/" ||
    str_startswith path_str "tests/"
  let is_shared := shared_checker path_str
  let is_config := is_config_file path_str
  let file_extension := path_suffix path_obj
  let instance_owner :=
    if !is_shared && !is_config then owner_resolver path_str else none
  { absolute := path_obj
    relative_to_project := relative
    instance_owner := instance_owner
    is_test_file := is_test_file
    is_shared := is_shared
    is_config := is_config
    file_extension := file_extension }

/-- The output lines ValidateMappingsCommand.execute appends, kept
structured; render gives the exact printed text. -/
inductive VLine where
  | header (nm : String)
  | dup (dir : String)
  | okLine (dir : String)
  | missingLine (dir : String)
deriving Repr, DecidableEq

/-- The text of a structured output line of ValidateMappingsCommand. -/
def VLine.render : VLine → String
  | .header nm => "\n" ++ nm ++ ":"
  | .dup dir => "  ❌ " ++ dir ++ " - DUPLICATE OWNERSHIP"
  | .okLine dir => "  ✅ " ++ dir
  | .missingLine dir => "  ⚠️  " ++ dir ++ " - does not exist yet"

/-- The loop state of ValidateMappingsCommand.execute: the validity flag, the
set of prefixes already seen (a list carrying set membership), and the output
lines so far. -/
structure VState where
  all_valid : Bool
  all_paths : List String
  lines : List VLine
deriving Repr, DecidableEq

/-- One directory step of ValidateMappingsCommand.execute: a repeated prefix
is a duplicate-ownership error, a fresh one is recorded and reported as
present or missing on disk. -/
def vstep (exists_on_disk : String → Bool) (st : VState) (dir : String) :
    VState :=
  if dir ∈ st.all_paths then
    { st with lines := st.lines ++ [.dup dir], all_valid := false }
  else
    { st with
      all_paths := dir :: st.all_paths
      lines := st.lines ++
        [if exists_on_disk dir then VLine.okLine dir else VLine.missingLine dir] }

/-- The instance loop of ValidateMappingsCommand.execute: a header line per
instance, then every declared directory in order. -/
def vrun (exists_on_disk : String → Bool)
    (instances : List (String × List String)) : VState :=
  instances.foldl
    (fun st inst =>
      inst.2.foldl (vstep exists_on_disk)
        { st with lines := st.lines ++ [.header inst.1] })
    { all_valid := true, all_paths := [], lines := [] }

/-- The exit code of ValidateMappingsCommand.execute: CommandResult.ok when
all mappings are valid, CommandResult.error with exit code 1 otherwise. -/
def validate_mappings_exit (exists_on_disk : String → Bool)
    (instances : List (String × List String)) : Nat :=
  if (vrun exists_on_disk instances).all_valid then 0 else 1

/-- Count of DUPLICATE OWNERSHIP lines in an output. -/
def dup_lines (ls : List VLine) : Nat :=
  ls.countP (fun l => match l with | .dup _ => true | _ => false)

/-- All directory prefixes declared across the instance map, in declaration
order. -/
def flat_dirs (instances : List (String × List String)) : List String :=
  instances.flatMap (fun i => i.2)

/-- The number of duplicate-ownership events the validation loop produces on
a directory list, given the set of prefixes already seen. -/
def dupC (seen : Finset String) : List String → Nat
  | [] => 0
  | d :: ds => if d ∈ seen then 1 + dupC seen ds else dupC (insert d seen) ds

/-- The owned-path validator is a no-op: every branch yields None. -/
theorem owned_validate_none (stmt : ImportStatement) (ctx : ValidationContext) :
    OwnedPathValidator.validate stmt ctx = none := by
  unfold OwnedPathValidator.validate
  split <;> simp

/-- The shared-import validator is a no-op. -/
theorem shared_validate_none (stmt : ImportStatement) (ctx : ValidationContext) :
    SharedImportValidator.validate stmt ctx = none := rfl

/-- Running the default chain produces exactly the optional cross-instance
violation. -/
theorem handle_chain_eq_cross (stmt : ImportStatement) (ctx : ValidationContext) :
    handle_chain create_validation_chain stmt ctx =
      (CrossInstanceValidator.validate stmt ctx).toList := by
  simp only [create_validation_chain, handle_chain, ValidatorKind.validate,
    owned_validate_none, shared_validate_none]
  cases CrossInstanceValidator.validate stmt ctx <;> rfl

/-- Any violation the cross-instance validator emits has error severity. -/
theorem cross_validate_severity (stmt : ImportStatement)
    (ctx : ValidationContext) (iv : ImportViolation)
    (h : CrossInstanceValidator.validate stmt ctx = some iv) :
    iv.severity = "error" := by
  unfold CrossInstanceValidator.validate at h
  split at h
  · exact absurd h (by simp)
  · obtain ⟨entry, -, he⟩ := List.exists_of_findSome?_eq_some h
    split at he
    · exact absurd he (by simp)
    · split at he
      · cases he.symm
        rfl
      · exact absurd he (by simp)

/-- C9: double negation is logically idempotent for the NotSpecification
combinator: NOT(NOT(spec)).is_satisfied_by(x) equals spec.is_satisfied_by(x)
for every specification and candidate. -/
theorem spec_not_not_idempotent {α : Type} (spec : Specification α) (x : α) :
    (Specification.NotSpecification
        (Specification.NotSpecification spec)).is_satisfied_by x
      = spec.is_satisfied_by x := by
  simp [Specification.is_satisfied_by]

/-- C10: the owned-path and shared-import validators return no violation on
any input, so the default chain built by create_validation_chain returns
exactly the zero-or-one-element result of the cross-instance validator
alone. -/
theorem default_chain_refines_cross (stmt : ImportStatement)
    (ctx : ValidationContext) :
    OwnedPathValidator.validate stmt ctx = none ∧
    SharedImportValidator.validate stmt ctx = none ∧
    handle_chain create_validation_chain stmt ctx =
      (CrossInstanceValidator.validate stmt ctx).toList :=
  ⟨owned_validate_none stmt ctx, shared_validate_none stmt ctx,
    handle_chain_eq_cross stmt ctx⟩

/-- C2: with the boundary map taking instance1 to src/storage/ and instance2
to src/embeddings/, the default chain applied by instance1 to the import
from src.embeddings.generator at line n yields exactly one violation, of
error severity, whose message names instance2 and contains the line
number n. -/
theorem cross_instance_single_error (n : Nat) (f : String)
    (owned allowed : List String) :
    ∃ v, handle_chain create_validation_chain
        { module := "src.embeddings.generator", names := ["Foo"], level := 0,
          source_file := f, line_number := n, is_from_import := true }
        { instance_id := "instance1", owned_paths := owned,
          allowed_imports := allowed,
          all_instance_boundaries :=
            [("instance1", ["src/storage/"]), ("instance2", ["src/embeddings/"])] }
      = [v]
      ∧ v.severity = "error"
      ∧ (∃ a b, v.message = a ++ "instance2" ++ b)
      ∧ (∃ a b, v.message = a ++ toString n ++ b) := by
  rw [handle_chain_eq_cross]
  exact ⟨_, rfl, rfl,
    ⟨"Cannot import from ",
      "'s module: src.embeddings.generator (line " ++ toString n ++ ")", rfl⟩,
    ⟨"Cannot import from instance2's module: src.embeddings.generator (line ",
      ")", rfl⟩⟩

/-- C4: a from-import clause yields exactly one ImportStatement carrying all
imported names, the from-import flag, and the level recorded by the parser
(the count of leading relative-import dots, 0 for an absolute import); in
particular from a.b.c import X, Y gives one statement with names X, Y,
level 0 and module_path a/b/c/. -/
theorem from_import_single_statement :
    (∀ (src : String) (module : String) (aliases : List ImportAlias)
        (level lineno : Nat),
      extractor_run src [PyStmt.importFrom (some module) aliases level lineno] =
        [{ module := module, names := aliases.map (fun a => a.name),
           level := level, source_file := src, line_number := lineno,
           is_from_import := true }])
    ∧ (∀ (src : String) (lineno : Nat),
        extractor_run src
            [PyStmt.importFrom (some "a.b.c") [⟨"X", none⟩, ⟨"Y", none⟩] 0 lineno]
          = [{ module := "a.b.c", names := ["X", "Y"], level := 0,
               source_file := src, line_number := lineno,
               is_from_import := true }]
        ∧ ImportStatement.module_path
            { module := "a.b.c", names := ["X", "Y"], level := 0,
              source_file := src, line_number := lineno,
              is_from_import := true } = "a/b/c/") := by
  refine ⟨fun src module aliases level lineno => rfl,
    fun src lineno => ⟨rfl, rfl⟩⟩

/-- C6 counterexample: at the empty module of a purely relative import,
module_path is the empty string, not the claimed dot-replaced form with a
trailing separator, which would be the one-character separator string. -/
theorem module_path_empty_counterexample :
    ImportStatement.module_path
        { module := "", names := ["x"], level := 1,
          source_file := "pkg/mod.py", line_number := 3,
          is_from_import := true } = ""
      ∧ ImportStatement.module_path
          { module := "", names := ["x"], level := 1,
            source_file := "pkg/mod.py", line_number := 3,
            is_from_import := true } ≠ replace_dots "" ++ "/" := by
  exact ⟨rfl, by decide⟩

/-- C6 amended: for a nonempty module, module_path is the module with every
dot replaced by a separator followed by one trailing separator; for the
empty module of a purely relative import it is the empty string instead. -/
theorem module_path_spec (st : ImportStatement) :
    (st.module ≠ "" →
      st.module_path.data
        = st.module.data.map (fun c => if c == '.' then '/' else c) ++ ['/'])
    ∧ (st.module = "" → st.module_path = "") := by
  constructor
  · intro h
    simp [ImportStatement.module_path, if_neg h, replace_dots]
  · intro h
    simp [ImportStatement.module_path, if_pos h]

/-- Witness for the amended C6 at concrete inputs: a dotted module and the
empty module. -/
theorem module_path_spec_witness :
    (("a.b" : String) ≠ "" ∧
      (ImportStatement.module_path
          { module := "a.b", names := ["X"], level := 0,
            source_file := "m.py", line_number := 1,
            is_from_import := true }).data
        = ("a.b" : String).data.map (fun c => if c == '.' then '/' else c)
            ++ ['/'])
    ∧ (("" : String) = "" ∧
      ImportStatement.module_path
          { module := "", names := ["X"], level := 2,
            source_file := "m.py", line_number := 1,
            is_from_import := true } = "") := by
  constructor
  · exact ⟨by decide, (module_path_spec _).1 (by decide)⟩
  · exact ⟨rfl, (module_path_spec _).2 rfl⟩

/-- C5 counterexample: a missing file whose extension is not .py raises
FileNotFoundError rather than returning the empty sequence. -/
theorem extract_imports_missing_counterexample :
    path_suffix "missing.txt" ≠ ".py"
      ∧ extract_imports "missing.txt" FileState.missing
          = Except.error (ExtractError.fileNotFound "missing.txt")
      ∧ extract_imports "missing.txt" FileState.missing
          ≠ Except.ok ([] : List ImportStatement) := by
  refine ⟨by decide, rfl, fun h => Except.noConfusion h⟩

/-- C5 amended: the existence check precedes the extension check: a missing
file raises FileNotFoundError whatever its extension, and an existing file
whose extension is not .py yields the empty sequence without error. -/
theorem extract_imports_spec (path : String) (st : FileState) :
    (st = FileState.missing →
      extract_imports path st = Except.error (ExtractError.fileNotFound path))
    ∧ (st ≠ FileState.missing → path_suffix path ≠ ".py" →
      extract_imports path st = Except.ok []) := by
  constructor
  · intro h
    subst h
    rfl
  · intro h hs
    cases st with
    | missing => exact absurd rfl h
    | unparsable => simp [extract_imports, if_pos hs]
    | parsed stmts => simp [extract_imports, if_pos hs]

/-- Witness for the amended C5 at concrete inputs: a missing Python file and
an existing text file. -/
theorem extract_imports_spec_witness :
    (FileState.missing = FileState.missing ∧
      extract_imports "gone.py" FileState.missing
        = Except.error (ExtractError.fileNotFound "gone.py"))
    ∧ (FileState.parsed [] ≠ FileState.missing ∧
      path_suffix "notes.txt" ≠ ".py" ∧
      extract_imports "notes.txt" (FileState.parsed [])
        = Except.ok []) := by
  refine ⟨⟨rfl, (extract_imports_spec "gone.py" FileState.missing).1 rfl⟩,
    ⟨by decide, by decide,
      (extract_imports_spec "notes.txt" (FileState.parsed [])).2
        (by decide) (by decide)⟩⟩

/-- C7: in FilePath.from_path the shared and config classifications suppress
instance ownership: whenever the produced FilePath is shared or config its
instance_owner is None, for every raw path, project root, owner resolver,
shared checker and pathlib oracle. -/
theorem from_path_shared_or_config_unowned (path project_root : String)
    (owner_resolver : String → Option String) (shared_checker : String → Bool)
    (is_absolute : String → Bool) (resolve : String → String)
    (relative_to : String → String → Option String)
    (h : (FilePath.from_path path project_root owner_resolver shared_checker
        is_absolute resolve relative_to).is_shared = true
      ∨ (FilePath.from_path path project_root owner_resolver shared_checker
        is_absolute resolve relative_to).is_config = true) :
    (FilePath.from_path path project_root owner_resolver shared_checker
        is_absolute resolve relative_to).instance_owner = none := by
  unfold FilePath.from_path at h ⊢
  dsimp only at h ⊢
  rcases h with h | h <;> simp [h]

/-- Witness for C7 at a concrete input: a path the shared checker accepts
even though the owner resolver would assign an owner. -/
theorem from_path_shared_or_config_unowned_witness :
    ((FilePath.from_path "src/mia_rag/common/x.py" "root"
        (fun _ => some "instance1") (fun _ => true) (fun _ => false)
        (fun s => s) (fun s _ => some s)).is_shared = true
      ∨ (FilePath.from_path "src/mia_rag/common/x.py" "root"
        (fun _ => some "instance1") (fun _ => true) (fun _ => false)
        (fun s => s) (fun s _ => some s)).is_config = true)
    ∧ (FilePath.from_path "src/mia_rag/common/x.py" "root"
        (fun _ => some "instance1") (fun _ => true) (fun _ => false)
        (fun s => s) (fun s _ => some s)).instance_owner = none := by
  refine ⟨Or.inl rfl, ?_⟩
  exact from_path_shared_or_config_unowned "src/mia_rag/common/x.py" "root"
    (fun _ => some "instance1") (fun _ => true) (fun _ => false)
    (fun s => s) (fun s _ => some s) (Or.inl rfl)

/-- C1: in non-strict mode, for every detected instance and batch of files,
the exit code of main is non-zero exactly when the report produced by
check_all_boundaries contains a violation of error severity. -/
theorem main_exit_nonzero_iff (inst : String)
    (files : List (String × FileState)) :
    main_exit (some inst) files false ≠ 0 ↔
      ∃ v ∈ (check_all_boundaries (some inst) files).1,
        v.severity = "error" := by
  unfold main_exit check_all_boundaries
  cases hf : files.isEmpty
  · simp only [hf]
    simp
    constructor
    · rintro ⟨v, p, st, hmem, hv, hsev⟩
      exact ⟨v, ⟨p, st, hmem, hv⟩, hsev⟩
    · rintro ⟨v, ⟨p, st, hmem, hv⟩, hsev⟩
      exact ⟨v, p, st, hmem, hv, hsev⟩
  · simp [hf]

/-- Transitivity of the code-point comparison of character lists. -/
theorem charListLe_trans (as : List Char) : ∀ bs cs,
    charListLe as bs = true → charListLe bs cs = true →
    charListLe as cs = true := by
  induction as with
  | nil => intro bs cs _ _; rfl
  | cons a as ih =>
    intro bs cs h1 h2
    cases bs with
    | nil => simp [charListLe] at h1
    | cons b bs =>
      cases cs with
      | nil => simp [charListLe] at h2
      | cons c cs =>
        simp only [charListLe] at h1 h2 ⊢
        rcases Nat.lt_trichotomy a.toNat b.toNat with hab | hab | hab <;>
          rcases Nat.lt_trichotomy b.toNat c.toNat with hbc | hbc | hbc
        · simp [Nat.lt_trans hab hbc]
        · simp [hbc ▸ hab]
        · rw [if_neg (by omega), if_pos hbc] at h2
          exact absurd h2 (by simp)
        · simp [hab ▸ hbc]
        · rw [if_neg (by omega), if_neg (by omega)] at h1 h2 ⊢
          exact ih bs cs h1 h2
        · rw [if_neg (by omega), if_pos hbc] at h2
          exact absurd h2 (by simp)
        · rw [if_neg (by omega), if_pos hab] at h1
          exact absurd h1 (by simp)
        · rw [if_neg (by omega), if_pos hab] at h1
          exact absurd h1 (by simp)
        · rw [if_neg (by omega), if_pos hab] at h1
          exact absurd h1 (by simp)

/-- Totality of the code-point comparison of character lists. -/
theorem charListLe_total (as : List Char) : ∀ bs,
    charListLe as bs = true ∨ charListLe bs as = true := by
  induction as with
  | nil => intro bs; exact Or.inl rfl
  | cons a as ih =>
    intro bs
    cases bs with
    | nil => exact Or.inr rfl
    | cons b bs =>
      simp only [charListLe]
      rcases Nat.lt_trichotomy a.toNat b.toNat with hab | hab | hab
      · left; simp [hab]
      · have h1 : ¬ a.toNat < b.toNat := by omega
        have h2 : ¬ b.toNat < a.toNat := by omega
        rw [if_neg h1, if_neg h2, if_neg h2, if_neg h1]
        exact ih bs
      · right; simp [hab]

/-- Transitivity of the sort order of check_all_boundaries. -/
theorem violation_le_trans (v w u : BoundaryViolation) :
    violation_le v w = true → violation_le w u = true →
    violation_le v u = true := by
  unfold violation_le str_le
  cases hv : (v.severity == "error") <;> cases hw : (w.severity == "error") <;>
    cases hu : (u.severity == "error") <;> simp_all <;>
    exact fun h1 h2 => charListLe_trans _ _ _ h1 h2

/-- Totality of the sort order of check_all_boundaries. -/
theorem violation_le_total (v w : BoundaryViolation) :
    violation_le v w = true ∨ violation_le w v = true := by
  unfold violation_le str_le
  cases hv : (v.severity == "error") <;> cases hw : (w.severity == "error") <;>
    simp_all <;> exact charListLe_total _ _

/-- Every ownership verdict is an error or a warning. -/
theorem check_file_ownership_severity (f i : String) (v : BoundaryViolation)
    (h : check_file_ownership f i = some v) :
    v.severity = "error" ∨ v.severity = "warning" := by
  unfold check_file_ownership at h
  split at h
  · exact absurd h (by simp)
  · split at h
    · exact absurd h (by simp)
    · split at h
      · cases h
        left
        rfl
      · cases h
        right
        rfl

/-- Every import-check violation is an error or a warning. -/
theorem check_imports_severity (i p : String) (st : FileState)
    (v : BoundaryViolation) (h : v ∈ check_imports i p st) :
    v.severity = "error" ∨ v.severity = "warning" := by
  unfold check_imports at h
  split at h
  · exact absurd h (by simp)
  · cases st with
    | missing => exact absurd h (by simp)
    | unparsable =>
        simp at h
        subst h
        right
        rfl
    | parsed stmts =>
        simp only [List.mem_flatMap, List.mem_map] at h
        obtain ⟨stmt, -, iv, hiv, rfl⟩ := h
        rw [handle_chain_eq_cross] at hiv
        left
        show iv.severity = "error"
        cases hc : CrossInstanceValidator.validate stmt (build_ctx i) with
        | none => rw [hc] at hiv; exact absurd hiv (by simp)
        | some iv2 =>
            rw [hc] at hiv
            simp [Option.toList] at hiv
            subst hiv
            exact cross_validate_severity _ _ _ hc

/-- C3: for every batch of candidate files, the merged report returned by
check_all_boundaries is ordered with all error-severity violations before
all warning-severity violations and those before any info-severity ones. -/
theorem report_sorted_by_severity (current : Option String)
    (files : List (String × FileState)) :
    ((check_all_boundaries current files).1).Pairwise
      (fun v w => severity_rank v.severity ≤ severity_rank w.severity) := by
  cases current with
  | none => simp [check_all_boundaries]
  | some inst =>
    unfold check_all_boundaries
    cases hf : files.isEmpty
    · simp only [hf, Bool.false_eq_true, if_false]
      have hsev : ∀ v ∈ files.flatMap (fun f =>
          (check_file_ownership f.1 inst).toList ++ check_imports inst f.1 f.2),
          v.severity = "error" ∨ v.severity = "warning" := by
        intro v hv
        simp only [List.mem_flatMap, List.mem_append] at hv
        obtain ⟨f, -, hv | hv⟩ := hv
        · exact check_file_ownership_severity f.1 inst v
            (by cases hx : check_file_ownership f.1 inst <;> rw [hx] at hv <;>
              simp at hv; subst hv; rfl)
        · exact check_imports_severity inst f.1 f.2 v hv
      have htot : ∀ a b : BoundaryViolation,
          (violation_le a b || violation_le b a) = true := by
        intro a b
        rcases violation_le_total a b with h | h <;> simp [h]
      have hp := List.sorted_mergeSort violation_le_trans htot
        (files.flatMap (fun f =>
          (check_file_ownership f.1 inst).toList ++ check_imports inst f.1 f.2))
      refine hp.imp_of_mem ?_
      intro a b ha hb hle
      have ha2 := hsev a (List.mem_mergeSort.mp ha)
      have hb2 := hsev b (List.mem_mergeSort.mp hb)
      rcases ha2 with ha2 | ha2
      · simp [severity_rank, ha2]
      · rcases hb2 with hb2 | hb2
        · exfalso
          unfold violation_le at hle
          simp [ha2, hb2] at hle
        · simp [severity_rank, ha2, hb2]
    · simp [hf]

/-- The empty directory list produces no duplicate events. -/
theorem dupC_nil (seen : Finset String) : dupC seen [] = 0 := rfl

/-- Unfolding of the duplicate counter on a cons cell. -/
theorem dupC_cons (seen : Finset String) (d : String) (ds : List String) :
    dupC seen (d :: ds) =
      if d ∈ seen then 1 + dupC seen ds else dupC (insert d seen) ds := rfl

/-- The duplicate counter counts occurrences beyond the first of each value
not already seen. -/
theorem dupC_eq (ds : List String) : ∀ seen : Finset String,
    dupC seen ds = ds.length - (ds.toFinset \ seen).card := by
  induction ds with
  | nil => intro seen; simp [dupC_nil]
  | cons d ds ih =>
    intro seen
    by_cases hd : d ∈ seen
    · have hins : insert d ds.toFinset \ seen = ds.toFinset \ seen :=
        Finset.insert_sdiff_of_mem _ hd
      have hle : (ds.toFinset \ seen).card ≤ ds.length :=
        le_trans (Finset.card_le_card Finset.sdiff_subset) ds.toFinset_card_le
      rw [dupC_cons, if_pos hd, ih seen, List.length_cons, List.toFinset_cons,
        hins]
      omega
    · have h1 : ds.toFinset \ insert d seen = (ds.toFinset \ seen).erase d := by
        ext x
        simp only [Finset.mem_sdiff, Finset.mem_erase, Finset.mem_insert]
        tauto
      have h2 : insert d ds.toFinset \ seen = insert d (ds.toFinset \ seen) := by
        ext x
        simp only [Finset.mem_sdiff, Finset.mem_insert]
        constructor
        · rintro ⟨hx | hx, hs⟩
          · exact Or.inl hx
          · exact Or.inr ⟨hx, hs⟩
        · rintro (rfl | ⟨hx, hs⟩)
          · exact ⟨Or.inl rfl, hd⟩
          · exact ⟨Or.inr hx, hs⟩
      have h3 : (insert d (ds.toFinset \ seen)).card
          = ((ds.toFinset \ seen).erase d).card + 1 := by
        by_cases hm : d ∈ ds.toFinset \ seen
        · rw [Finset.insert_eq_self.2 hm, Finset.card_erase_add_one hm]
        · rw [Finset.card_insert_of_not_mem hm, Finset.erase_eq_self.2 hm]
      have h4 : ((ds.toFinset \ seen).erase d).card ≤ (ds.toFinset \ seen).card :=
        Finset.card_le_card (Finset.erase_subset _ _)
      have h5 : (ds.toFinset \ seen).card ≤ ds.toFinset.card :=
        Finset.card_le_card Finset.sdiff_subset
      have h6 := ds.toFinset_card_le
      rw [dupC_cons, if_neg hd, ih (insert d seen), List.length_cons,
        List.toFinset_cons, h1, h2, h3]
      omega

/-- Duplicate events over a concatenation split at the seen set grown by the
first part. -/
theorem dupC_append (xs : List String) : ∀ (ys : List String) (seen : Finset String),
    dupC seen (xs ++ ys) = dupC seen xs + dupC (seen ∪ xs.toFinset) ys := by
  induction xs with
  | nil => intro ys seen; simp [dupC_nil]
  | cons d xs ih =>
    intro ys seen
    rw [List.cons_append, dupC_cons, dupC_cons]
    by_cases hd : d ∈ seen
    · have hu : seen ∪ (d :: xs).toFinset = seen ∪ xs.toFinset := by
        rw [List.toFinset_cons, Finset.union_insert,
          Finset.insert_eq_self.2 (Finset.mem_union_left _ hd)]
      rw [if_pos hd, if_pos hd, ih ys seen, hu]
      omega
    · have hu : seen ∪ (d :: xs).toFinset = insert d seen ∪ xs.toFinset := by
        rw [List.toFinset_cons, Finset.union_insert, Finset.insert_union]
      rw [if_neg hd, if_neg hd, ih ys (insert d seen), hu]

/-- Duplicate-line counting distributes over appended output. -/
theorem dup_lines_append (ls ms : List VLine) :
    dup_lines (ls ++ ms) = dup_lines ls + dup_lines ms := by
  simp [dup_lines, List.countP_append]

/-- The line a single validation step appends. -/
theorem vstep_lines (F : String → Bool) (st : VState) (d : String) :
    (vstep F st d).lines = st.lines ++
      [if d ∈ st.all_paths then VLine.dup d
       else if F d then VLine.okLine d else VLine.missingLine d] := by
  unfold vstep
  split <;> rfl

/-- The seen-prefix list after a single validation step. -/
theorem vstep_all_paths (F : String → Bool) (st : VState) (d : String) :
    (vstep F st d).all_paths =
      if d ∈ st.all_paths then st.all_paths else d :: st.all_paths := by
  unfold vstep
  split <;> rfl

/-- The validity flag after a single validation step. -/
theorem vstep_all_valid (F : String → Bool) (st : VState) (d : String) :
    (vstep F st d).all_valid =
      if d ∈ st.all_paths then false else st.all_valid := by
  unfold vstep
  split <;> rfl

/-- The directory loop only appends output lines. -/
theorem vfold_mono (F : String → Bool) (ds : List String) : ∀ (st : VState)
    (l : VLine), l ∈ st.lines → l ∈ (ds.foldl (vstep F) st).lines := by
  induction ds with
  | nil => intro st l h; exact h
  | cons d ds ih =>
    intro st l h
    rw [List.foldl_cons]
    refine ih _ l ?_
    rw [vstep_lines]
    exact List.mem_append_left _ h

/-- Behaviour of the directory loop: duplicate lines counted by dupC, seen
prefixes grown by the processed directories, validity cleared exactly when a
duplicate occurred. -/
theorem vfold_spec (F : String → Bool) (ds : List String) : ∀ st : VState,
    dup_lines ((ds.foldl (vstep F) st).lines)
        = dup_lines st.lines + dupC st.all_paths.toFinset ds
      ∧ ((ds.foldl (vstep F) st).all_paths).toFinset
        = st.all_paths.toFinset ∪ ds.toFinset
      ∧ (ds.foldl (vstep F) st).all_valid
        = (st.all_valid && (dupC st.all_paths.toFinset ds == 0)) := by
  induction ds with
  | nil => intro st; simp [dupC_nil]
  | cons d ds ih =>
    intro st
    rw [List.foldl_cons]
    obtain ⟨i1, i2, i3⟩ := ih (vstep F st d)
    by_cases hd : d ∈ st.all_paths
    · have hd2 : d ∈ st.all_paths.toFinset := List.mem_toFinset.2 hd
      refine ⟨?_, ?_, ?_⟩
      · rw [i1, vstep_lines, dup_lines_append, vstep_all_paths, if_pos hd,
          if_pos hd, dupC_cons, if_pos hd2]
        have hone : dup_lines [VLine.dup d] = 1 := rfl
        rw [hone]
        omega
      · rw [i2, vstep_all_paths, if_pos hd, List.toFinset_cons,
          Finset.union_insert]
        exact (Finset.insert_eq_self.2 (Finset.mem_union_left _ hd2)).symm
      · rw [i3, vstep_all_valid, if_pos hd, vstep_all_paths, if_pos hd,
          dupC_cons, if_pos hd2, Bool.false_and]
        have : (1 + dupC st.all_paths.toFinset ds == 0) = false := by
          simp [Nat.add_comm]
        rw [this, Bool.and_false]
    · have hd2 : d ∉ st.all_paths.toFinset := fun hc => hd (List.mem_toFinset.1 hc)
      have hfin : (vstep F st d).all_paths.toFinset
          = insert d st.all_paths.toFinset := by
        rw [vstep_all_paths, if_neg hd, List.toFinset_cons]
      refine ⟨?_, ?_, ?_⟩
      · rw [i1, vstep_lines, dup_lines_append, if_neg hd, hfin, dupC_cons,
          if_neg hd2]
        have hz : dup_lines [if F d then VLine.okLine d else VLine.missingLine d]
            = 0 := by
          cases hF : F d <;> rfl
        rw [hz]
        omega
      · rw [i2, hfin, List.toFinset_cons, Finset.insert_union,
          Finset.union_insert]
      · rw [i3, vstep_all_valid, if_neg hd, hfin, dupC_cons, if_neg hd2]

/-- Flattened prefixes of a cons of instances. -/
theorem flat_dirs_cons (i : String × List String)
    (rest : List (String × List String)) :
    flat_dirs (i :: rest) = i.2 ++ flat_dirs rest := rfl

/-- Conjunction of zero tests is the zero test of the sum. -/
theorem beq_zero_and (x y : Nat) :
    ((x == 0) && (y == 0)) = (x + y == 0) := by
  rw [Bool.eq_iff_iff]
  simp [Nat.add_eq_zero_iff]

/-- Behaviour of the instance loop, the directory-loop invariants composed
over the flattened prefixes. -/
theorem vinsts_spec (F : String → Bool) :
    ∀ (insts : List (String × List String)) (st : VState),
    dup_lines ((insts.foldl (fun st i =>
          i.2.foldl (vstep F) { st with lines := st.lines ++ [VLine.header i.1] })
        st).lines)
        = dup_lines st.lines + dupC st.all_paths.toFinset (flat_dirs insts)
      ∧ ((insts.foldl (fun st i =>
          i.2.foldl (vstep F) { st with lines := st.lines ++ [VLine.header i.1] })
        st).all_paths).toFinset
        = st.all_paths.toFinset ∪ (flat_dirs insts).toFinset
      ∧ (insts.foldl (fun st i =>
          i.2.foldl (vstep F) { st with lines := st.lines ++ [VLine.header i.1] })
        st).all_valid
        = (st.all_valid && (dupC st.all_paths.toFinset (flat_dirs insts) == 0)) := by
  intro insts
  induction insts with
  | nil => intro st; simp [flat_dirs, dupC_nil]
  | cons i rest ih =>
    intro st
    rw [List.foldl_cons]
    have hsth : dup_lines ({ st with lines := st.lines ++ [VLine.header i.1] } : VState).lines
        = dup_lines st.lines := by
      rw [dup_lines_append]
      rfl
    obtain ⟨k1, k2, k3⟩ :=
      vfold_spec F i.2 { st with lines := st.lines ++ [VLine.header i.1] }
    obtain ⟨j1, j2, j3⟩ := ih (i.2.foldl (vstep F)
      { st with lines := st.lines ++ [VLine.header i.1] })
    dsimp only at k1 k2 k3 j1 j2 j3 hsth ⊢
    rw [flat_dirs_cons, dupC_append]
    refine ⟨?_, ?_, ?_⟩
    · rw [j1, k1, k2, hsth]
      omega
    · rw [j2, k2, List.toFinset_append, Finset.union_assoc]
    · rw [j3, k3, k2, ← beq_zero_and, Bool.and_assoc]

/-- The instance loop only appends output lines. -/
theorem vinsts_mono (F : String → Bool) :
    ∀ (insts : List (String × List String)) (st : VState) (l : VLine),
    l ∈ st.lines →
    l ∈ (insts.foldl (fun st i =>
        i.2.foldl (vstep F) { st with lines := st.lines ++ [VLine.header i.1] })
      st).lines := by
  intro insts
  induction insts with
  | nil => intro st l h; exact h
  | cons i rest ih =>
    intro st l h
    rw [List.foldl_cons]
    refine ih _ l (vfold_mono F i.2 _ l ?_)
    exact List.mem_append_left _ h

/-- A fresh directory reported absent from disk leaves its warning line in
the directory-loop output. -/
theorem vfold_missing (F : String → Bool) (ds : List String) : ∀ (st : VState),
    ds.Nodup → (∀ x ∈ ds, x ∉ st.all_paths) →
    ∀ d ∈ ds, F d = false →
    VLine.missingLine d ∈ (ds.foldl (vstep F) st).lines := by
  induction ds with
  | nil => intro st _ _ d hd; cases hd
  | cons d0 ds ih =>
    intro st hnd hdisj d hd hF
    rw [List.foldl_cons]
    have hd0 : d0 ∉ st.all_paths := hdisj d0 (List.mem_cons_self _ _)
    rcases List.mem_cons.1 hd with rfl | hd
    · apply vfold_mono
      rw [vstep_lines, if_neg hd0, hF]
      exact List.mem_append_right _ (List.mem_singleton_self _)
    · refine ih (vstep F st d0) (List.Nodup.of_cons hnd) ?_ d hd hF
      intro x hx
      rw [vstep_all_paths, if_neg hd0]
      intro hmem
      rcases List.mem_cons.1 hmem with rfl | hmem
      · exact (List.nodup_cons.1 hnd).1 hx
      · exact hdisj x (List.mem_cons_of_mem _ hx) hmem

/-- A declared prefix absent from disk leaves its warning line in the
instance-loop output when no prefix repeats. -/
theorem vinsts_missing (F : String → Bool) :
    ∀ (insts : List (String × List String)) (st : VState),
    (flat_dirs insts).Nodup → (∀ x ∈ flat_dirs insts, x ∉ st.all_paths) →
    ∀ d ∈ flat_dirs insts, F d = false →
    VLine.missingLine d ∈ (insts.foldl (fun st i =>
        i.2.foldl (vstep F) { st with lines := st.lines ++ [VLine.header i.1] })
      st).lines := by
  intro insts
  induction insts with
  | nil => intro st _ _ d hd; cases hd
  | cons i rest ih =>
    intro st hnd hdisj d hd hF
    rw [List.foldl_cons]
    rw [flat_dirs_cons] at hnd hdisj hd
    rcases List.mem_append.1 hd with hd | hd
    · refine vinsts_mono F rest _ _ ?_
      refine vfold_missing F i.2 _ (hnd.of_append_left) ?_ d hd hF
      intro x hx
      exact hdisj x (List.mem_append_left _ hx)
    · refine ih (i.2.foldl (vstep F)
        { st with lines := st.lines ++ [VLine.header i.1] })
        (hnd.of_append_right) ?_ d hd hF
      intro x hx hmem
      have hfin := (vfold_spec F i.2
        { st with lines := st.lines ++ [VLine.header i.1] }).2.1
      have hx2 : x ∈ (i.2.foldl (vstep F)
          { st with lines := st.lines ++ [VLine.header i.1] }).all_paths.toFinset :=
        List.mem_toFinset.2 hmem
      rw [hfin] at hx2
      rcases Finset.mem_union.1 hx2 with hx2 | hx2
      · exact hdisj x (List.mem_append_right _ hx) (List.mem_toFinset.1 hx2)
      · exact (List.disjoint_of_nodup_append hnd)
          (List.mem_toFinset.1 hx2) hx

/-- The full validation run counts duplicate lines by dupC from the empty
seen set, and validity is the absence of duplicates. -/
theorem vrun_base (F : String → Bool) (insts : List (String × List String)) :
    dup_lines (vrun F insts).lines = dupC ∅ (flat_dirs insts)
      ∧ (vrun F insts).all_valid = (dupC ∅ (flat_dirs insts) == 0) := by
  obtain ⟨a1, a2, a3⟩ := vinsts_spec F insts
    { all_valid := true, all_paths := [], lines := [] }
  unfold vrun
  constructor
  · simpa [dup_lines] using a1
  · simpa [dup_lines] using a3

/-- C8: when the flattened declared prefixes contain exactly one repeated
occurrence, as when exactly two instances declare the identical prefix and
all other prefixes are distinct, map validation reports exactly one
DUPLICATE OWNERSHIP line and exits non-zero; with no duplicates the exit
status is zero and a declared prefix absent from disk yields only its
warning line. -/
theorem validate_mappings_claim :
    (∀ (insts : List (String × List String)) (F : String → Bool),
      (flat_dirs insts).length = (flat_dirs insts).dedup.length + 1 →
      dup_lines (vrun F insts).lines = 1 ∧ validate_mappings_exit F insts ≠ 0)
    ∧ (∀ (insts : List (String × List String)) (F : String → Bool),
      (flat_dirs insts).Nodup →
      validate_mappings_exit F insts = 0 ∧
      ∀ d ∈ flat_dirs insts, F d = false →
        VLine.missingLine d ∈ (vrun F insts).lines) := by
  constructor
  · intro insts F h
    obtain ⟨hb1, hb2⟩ := vrun_base F insts
    have hdup : dupC ∅ (flat_dirs insts) = 1 := by
      rw [dupC_eq, Finset.sdiff_empty, List.card_toFinset]
      omega
    constructor
    · rw [hb1, hdup]
    · unfold validate_mappings_exit
      rw [hb2, hdup]
      simp
  · intro insts F h
    obtain ⟨hb1, hb2⟩ := vrun_base F insts
    have hdup : dupC ∅ (flat_dirs insts) = 0 := by
      rw [dupC_eq, Finset.sdiff_empty, List.card_toFinset, h.dedup]
      omega
    constructor
    · unfold validate_mappings_exit
      rw [hb2, hdup]
      simp
    · intro d hd hF
      unfold vrun
      exact vinsts_missing F insts
        { all_valid := true, all_paths := [], lines := [] } h
        (fun x _ hc => (List.not_mem_nil x) hc) d hd hF

/-- Witness for C8: the two-instance src/shared duplicate and a single
non-existent prefix. -/
theorem validate_mappings_claim_witness :
    ((flat_dirs [("instance1", ["src/shared"]), ("instance2", ["src/shared"])]).length
        = (flat_dirs
            [("instance1", ["src/shared"]), ("instance2", ["src/shared"])]).dedup.length + 1
      ∧ dup_lines (vrun (fun _ => false)
          [("instance1", ["src/shared"]), ("instance2", ["src/shared"])]).lines = 1
      ∧ validate_mappings_exit (fun _ => false)
          [("instance1", ["src/shared"]), ("instance2", ["src/shared"])] ≠ 0)
    ∧ ((flat_dirs [("instance1", ["src/storage"])]).Nodup
      ∧ validate_mappings_exit (fun _ => false) [("instance1", ["src/storage"])] = 0
      ∧ VLine.missingLine "src/storage" ∈
          (vrun (fun _ => false) [("instance1", ["src/storage"])]).lines) := by
  constructor
  · have h := validate_mappings_claim.1
      [("instance1", ["src/shared"]), ("instance2", ["src/shared"])]
      (fun _ => false) (by decide)
    exact ⟨by decide, h.1, h.2⟩
  · have h := validate_mappings_claim.2 [("instance1", ["src/storage"])]
      (fun _ => false) (by decide)
    exact ⟨by decide, h.1, h.2 "src/storage" (by decide) rfl⟩
